import Mathlib

/-
Verification of the build-pipeline orchestrator in `build.config.mjs`
(package-template repository).

The script is a strictly sequential six-step pipeline:
  1. cleanTargetDirectory  — shell out to `rm -rf` / `rd /s /q`
  2. build                 — invoke esbuild with a fixed option object
  3. copyStaticFiles       — copy a fixed list of static files
  4. updateVersionTemplates — substitute the first occurrence of the
     token "\x7b\x7bversion\x7d\x7d" in dist/index.js with the version
     read from the root package.json
  5. manipulatePackageJsonFile — sanitize the copied manifest
  6. printDoneMessage      — report elapsed time

The embedding below models each step as a pure function over explicit
state: the source tree is a `SourceFs`, the output directory a
`DistState`, file contents are `String`s, and fallible steps return
`Except String`.  JavaScript `String.prototype.replace` with a string
pattern (replace the first literal occurrence) is modelled over
`List Char` by `replaceFirstL`; the substitution patterns of the
replacement string (the `$`-escapes of JavaScript) are outside the
domain used by the script (version strings) and are not modelled.
-/

namespace BuildConfig

/-! ## String machinery: occurrence counting and first-occurrence replacement -/

/-- Number of positions of `s` at which the pattern `pat` matches
(counts every starting position, so overlapping matches each count). -/
def countPos (pat : List Char) : List Char → Nat
  | [] => 0
  | c :: rest => (if pat.isPrefixOf (c :: rest) then 1 else 0) + countPos pat rest

/-- Number of positions inside the region `x` of the concatenation `x ++ d`
at which `pat` matches (matches may extend into `d`). -/
def countPR (pat : List Char) : List Char → List Char → Nat
  | [], _ => 0
  | c :: x, d => (if pat.isPrefixOf (c :: (x ++ d)) then 1 else 0) + countPR pat x d

/-- Replace the first occurrence of `pat` in the third argument with `repl`;
leave the list unchanged when `pat` does not occur.  This is the semantics of
JavaScript `String.prototype.replace` with a string pattern and a replacement
containing no substitution escape. -/
def replaceFirstL (pat repl : List Char) : List Char → List Char
  | [] => if pat.isPrefixOf ([] : List Char) then repl else []
  | c :: rest =>
    if pat.isPrefixOf (c :: rest) then repl ++ (c :: rest).drop pat.length
    else c :: replaceFirstL pat repl rest

/-- The literal placeholder token searched for by step 4 of the pipeline. -/
def versionToken : List Char := "\x7b\x7bversion\x7d\x7d".data

/-! ## Data model: package manifest -/

/-- The `publishConfig` object of a package manifest (`{ access: string }`). -/
structure PublishConfig where
  access : String
deriving DecidableEq

/-- The package-manifest document, with the fields declared in the
`PackageJson` typedef of `build.config.mjs`; optional fields model the
presence or absence of the corresponding JSON key. -/
structure PackageJson where
  version : String
  «private» : Option Bool
  main : String
  types : String
  scripts : Option (List (String × String))
  publishConfig : Option PublishConfig
  devDependencies : Option (List (String × String))
deriving DecidableEq

/-! ## Step 1: cleanTargetDirectory -/

/-- The delete command selected by `cleanTargetDirectory` (line 57 of
`build.config.mjs`): `rd /s /q <dir>` on win32, `rm -rf <dir>` otherwise. -/
def cleanDeleteCommand (platform outDirName : String) : String :=
  if platform = "win32" then "rd /s /q " ++ outDirName else "rm -rf " ++ outDirName

/-- Remove one directory from a set of existing directories. -/
def shellRemoveDir (target : String) (dirs : String → Bool) : String → Bool :=
  fun d => if d = target then false else dirs d

/-- Modelled from the spec: the external shell collaborator (`execSync`),
restricted to the only two command forms the spec requires.  Both
`rm -rf <dir>` (POSIX) and `rd /s /q <dir>` (Windows) recursively and
forcibly delete the named directory and succeed silently as a no-op when
it does not exist; any other command is not modelled (`none`). -/
def execSyncDelete (cmd : String) (dirs : String → Bool) : Option (String → Bool) :=
  if "rd /s /q ".data.isPrefixOf cmd.data then
    some (shellRemoveDir (String.mk (cmd.data.drop 9)) dirs)
  else if "rm -rf ".data.isPrefixOf cmd.data then
    some (shellRemoveDir (String.mk (cmd.data.drop 7)) dirs)
  else none

/-- Step 1 of the pipeline: build the platform-specific delete command and
hand it to the shell. -/
def cleanTargetDirectory (platform outDirName : String) (dirs : String → Bool) :
    Option (String → Bool) :=
  execSyncDelete (cleanDeleteCommand platform outDirName) dirs

/-! ## Step 2: build (esbuild options) -/

/-- The option object passed to the in-process esbuild call
(lines 70-92 of `build.config.mjs`). -/
structure EsbuildOptions where
  entryPoints : List String
  bundle : Bool
  outfile : String
  sourcemap : Bool
  minify : Bool
  platform : String
  format : String
  tsconfig : String
  treeShaking : Bool
  mainFields : List String
  packages : String
  conditions : List String
deriving DecidableEq

/-- `isProd` (line 24): the environment mode variable compared against
the string "production"; an unset variable is `none`. -/
def isProdOf (mode : Option String) : Bool :=
  decide (mode = some "production")

/-- The esbuild configuration built by `build` (lines 70-92), as a function
of the environment mode and the output directory name. -/
def esbuildBuildOptions (mode : Option String) (outDirName : String) : EsbuildOptions :=
  { entryPoints := ["src/index.ts"]
    bundle := true
    outfile := outDirName ++ "/index.js"
    sourcemap := !(isProdOf mode)
    minify := isProdOf mode
    platform := "node"
    format := "cjs"
    tsconfig := "tsconfig.json"
    treeShaking := true
    mainFields := ["main", "module"]
    packages := "external"
    conditions := [] }

/-! ## Step 3: copyStaticFiles -/

/-- One record of the fixed copy list (lines 103-108): a file name, the
relative source and destination directory segments, and the optional
`isAllowedToFail` flag (absent on the required entries). -/
structure CopySpec where
  filename : String
  sourceDirPath : List String
  destinationDirPath : List String
  isAllowedToFail : Option Bool
deriving DecidableEq

/-- The fixed ordered copy list of `copyStaticFiles` (lines 103-108). -/
def filesToCopyArr : List CopySpec :=
  [ { filename := "package.json", sourceDirPath := [], destinationDirPath := [],
      isAllowedToFail := none }
  , { filename := "README.md", sourceDirPath := [], destinationDirPath := [],
      isAllowedToFail := none }
  , { filename := ".npmrc", sourceDirPath := [], destinationDirPath := [],
      isAllowedToFail := some true }
  , { filename := ".npmignore", sourceDirPath := [], destinationDirPath := [],
      isAllowedToFail := some true } ]

/-- Console output produced inside the `forEach` body of `copyStaticFiles`:
a bullet line echoing a copied file name, or the `console.error(error)`
line printed just before the fatal throw. -/
inductive LogEntry where
  | copiedFile (filename : String)
  | errorPrinted (filename : String)
deriving DecidableEq

/-- The message of the error thrown when a required copy fails (line 122). -/
def copyFatalMsg : String :=
  "File MUST exists in order to PASS build process! cp operation failed..."

/-- Result of iterating the copy list: the files copied (in order), the
console output, and the thrown error if iteration was aborted. -/
structure CopyResult where
  copied : List String
  logs : List LogEntry
  fatalError : Option String
deriving DecidableEq

/-- The `forEach` loop of `copyStaticFiles` (lines 110-124) over an
abstract source tree given by a presence predicate: a present source file
is copied and its name logged; a missing one is silently skipped when
`isAllowedToFail` is truthy, and otherwise the error is printed and a
fatal error aborts the remaining iterations. -/
def copyFilesGo (srcHas : String → Bool) : List CopySpec → CopyResult
  | [] => { copied := [], logs := [], fatalError := none }
  | spec :: rest =>
    if srcHas spec.filename then
      let r := copyFilesGo srcHas rest
      { copied := spec.filename :: r.copied
        logs := LogEntry.copiedFile spec.filename :: r.logs
        fatalError := r.fatalError }
    else if spec.isAllowedToFail.getD false then
      copyFilesGo srcHas rest
    else
      { copied := [], logs := [LogEntry.errorPrinted spec.filename],
        fatalError := some copyFatalMsg }

/-- Step 3 of the pipeline: run the copy loop on the fixed list. -/
def copyStaticFiles (srcHas : String → Bool) : CopyResult :=
  copyFilesGo srcHas filesToCopyArr

/-! ## Pipeline state -/

/-- The source tree at the project root: the root manifest (if present and
parseable), presence of the other static files, and the bundle content that
esbuild produces for `src/index.ts` (an opaque, deterministic input). -/
structure SourceFs where
  packageJson : Option PackageJson
  hasReadme : Bool
  hasNpmrc : Bool
  hasNpmignore : Bool
  bundleOutput : String
deriving DecidableEq

/-- Presence predicate of the source tree over the file names the copy
list mentions. -/
def srcHasOf (src : SourceFs) : String → Bool := fun name =>
  if name = "package.json" then src.packageJson.isSome
  else if name = "README.md" then src.hasReadme
  else if name = ".npmrc" then src.hasNpmrc
  else if name = ".npmignore" then src.hasNpmignore
  else false

/-- The output (`dist`) directory: the built artifact `index.js`, the
copied manifest (if present), and the names of the copied static files. -/
structure DistState where
  indexJs : String
  packageJson : Option PackageJson
  staticFiles : List String
deriving DecidableEq

/-! ## Step 4: updateVersionTemplates -/

/-- Step 4 (lines 132-146): read `version` from the ROOT manifest (not the
copy in the output directory), replace the first occurrence of the literal
placeholder token in `dist/index.js`, and write the result back to the same
artifact; nothing else in the output directory is touched. -/
def updateVersionTemplates (rootPkg : PackageJson) (dist : DistState) : DistState :=
  { dist with
    indexJs := String.mk (replaceFirstL versionToken rootPkg.version.data dist.indexJs.data) }

/-! ## Step 5: manipulatePackageJsonFile -/

/-- The JavaScript error raised by `packageJson.publishConfig.access = ...`
when `publishConfig` is absent (line 163). -/
def publishConfigTypeError : String :=
  "TypeError: Cannot set properties of undefined (setting \x27access\x27)"

/-- Step 5 (lines 151-174): delete the `private`, `scripts` and
`devDependencies` keys of the copied manifest, then set
`publishConfig.access` to "public"; setting the property throws when the
manifest has no `publishConfig` object, and only on success is the file
rewritten. -/
def manipulatePackageJsonFile (packageJson : PackageJson) : Except String PackageJson :=
  match packageJson.publishConfig with
  | none => Except.error publishConfigTypeError
  | some pc =>
    Except.ok { packageJson with
      «private» := none
      scripts := none
      devDependencies := none
      publishConfig := some { pc with access := "public" } }

/-! ## Step 6: printDoneMessage -/

/-- `(elapsedMs / 1000).toFixed(2)` modelled by exact decimal rounding
(half away from zero) to two decimal places. -/
def toFixedTwoOfMs (elapsedMs : Nat) : String :=
  let centis := (elapsedMs + 5) / 10
  toString (centis / 100) ++ "." ++
    (if centis % 100 < 10 then "0" else "") ++ toString (centis % 100)

/-- Step 6 (lines 179-194): format the elapsed wall-clock time as seconds
with two decimals when at least 1000 ms elapsed and as whole milliseconds
otherwise, and build the completion message. -/
def printDoneMessage (startTime endTime : Nat) : String :=
  let elapsedMs := endTime - startTime
  let elapsedTimeMessage :=
    if elapsedMs ≥ 1000 then toFixedTwoOfMs elapsedMs ++ " sec"
    else toString elapsedMs ++ " ms"
  "✨Done in " ++ elapsedTimeMessage ++ " ✅"

/-! ## The pipeline: buildPackageConfig -/

/-- `buildPackageConfig` (lines 36-50) without the timing side channel:
run steps 1-5 in order on the source tree, starting from whatever output
directory the previous run left behind (step 1 deletes it), and produce
the final output directory or the first fatal error. -/
def runPipeline (src : SourceFs) (prevDist : Option DistState) : Except String DistState :=
  -- Step 1: clean the target directory; the previous output directory
  -- `prevDist`, if any, is deleted and plays no further part.
  -- Step 2: esbuild writes the bundle as dist/index.js.
  let builtIndexJs := src.bundleOutput
  -- Step 3: copy the static files.
  let cr := copyStaticFiles (srcHasOf src)
  match cr.fatalError with
  | some e => Except.error e
  | none =>
    -- The manifest reaches the output directory exactly when it was copied.
    let distPkg : Option PackageJson :=
      if "package.json" ∈ cr.copied then src.packageJson else none
    -- Step 4: substitute the version placeholder, reading the ROOT manifest.
    match src.packageJson with
    | none => Except.error "ENOENT: no such file or directory, open ./package.json"
    | some rootPkg =>
      let dist1 : DistState :=
        { indexJs := builtIndexJs, packageJson := distPkg,
          staticFiles := cr.copied }
      let dist2 := updateVersionTemplates rootPkg dist1
      -- Step 5: sanitize the copied manifest.
      match dist2.packageJson with
      | none => Except.error "ENOENT: no such file or directory, open dist/package.json"
      | some pj =>
        match manipulatePackageJsonFile pj with
        | Except.error e => Except.error e
        | Except.ok pj2 => Except.ok { dist2 with packageJson := some pj2 }

/-- `buildPackageConfig` with its timing behavior: the start timestamp is
captured before step 1, the end timestamp after step 5, and the completion
message is produced only when all five steps succeeded. -/
def buildPackageConfigTimed (startTime endTime : Nat) (src : SourceFs)
    (prevDist : Option DistState) : Except String (DistState × String) :=
  match runPipeline src prevDist with
  | Except.error e => Except.error e
  | Except.ok d => Except.ok (d, printDoneMessage startTime endTime)

/-! ## Concrete inputs used by witnesses and counterexamples -/

/-- A representative source manifest with every sanitized field present. -/
def wPkg : PackageJson :=
  { version := "2.3.1"
    «private» := some true
    main := "index.js"
    types := "index.d.ts"
    scripts := some [("build", "node build.config.mjs")]
    publishConfig := some { access := "restricted" }
    devDependencies := some [("typescript", "5.0.0")] }

/-- `wPkg` after sanitization. -/
def wPkgSanitized : PackageJson :=
  { version := "2.3.1"
    «private» := none
    main := "index.js"
    types := "index.d.ts"
    scripts := none
    publishConfig := some { access := "public" }
    devDependencies := none }

/-- A complete source tree on which the pipeline succeeds. -/
def wSrc : SourceFs :=
  { packageJson := some wPkg
    hasReadme := true
    hasNpmrc := true
    hasNpmignore := true
    bundleOutput := "v = \x7b\x7bversion\x7d\x7d;" }

/-- The output directory the pipeline produces from `wSrc`. -/
def wDistOut : DistState :=
  { indexJs := "v = 2.3.1;"
    packageJson := some wPkgSanitized
    staticFiles := ["package.json", "README.md", ".npmrc", ".npmignore"] }

/-- A source manifest lacking the `publishConfig` key. -/
def wNoPubPkg : PackageJson :=
  { version := "0.1.0"
    «private» := some false
    main := "index.js"
    types := "index.d.ts"
    scripts := none
    publishConfig := none
    devDependencies := none }

/-- A source tree whose manifest lacks `publishConfig`. -/
def wNoPubSrc : SourceFs :=
  { packageJson := some wNoPubPkg
    hasReadme := true
    hasNpmrc := false
    hasNpmignore := false
    bundleOutput := "x" }

/-- A source tree with the required files but no readme. -/
def wNoReadmeSrc : SourceFs :=
  { packageJson := some wPkg
    hasReadme := false
    hasNpmrc := true
    hasNpmignore := true
    bundleOutput := "x" }

/-- A built artifact holding exactly one placeholder token. -/
def wDistOneToken : DistState :=
  { indexJs := "v \x7b\x7bversion\x7d\x7d z", packageJson := none, staticFiles := [] }

/-- A built artifact holding the placeholder token twice. -/
def wDistTwoTokens : DistState :=
  { indexJs := "\x7b\x7bversion\x7d\x7d\x7b\x7bversion\x7d\x7d"
    packageJson := none, staticFiles := [] }

/-- A built artifact with no placeholder token at all. -/
def wDistNoToken : DistState :=
  { indexJs := "plain content", packageJson := none, staticFiles := [] }

/-- A source tree presence predicate under which no file exists. -/
def wMissingHas : String → Bool := fun _ => false

/-- A source tree presence predicate under which everything but the
optional `.npmrc` exists. -/
def wNoNpmrcHas : String → Bool := fun name => !(name == ".npmrc")

/-- The optional `.npmrc` entry of the copy list. -/
def wSpecNpmrc : CopySpec :=
  { filename := ".npmrc", sourceDirPath := [], destinationDirPath := [],
    isAllowedToFail := some true }

/-- The required `README.md` entry of the copy list. -/
def wSpecReadme : CopySpec :=
  { filename := "README.md", sourceDirPath := [], destinationDirPath := [],
    isAllowedToFail := none }

/-- The completion message printed for a 1234 ms run. -/
def wDoneMsg : String := "✨Done in 1.23 sec ✅"

/-! ## Lemmas about occurrence counting and first-occurrence replacement -/

theorem countPos_append (pat x d : List Char) :
    countPos pat (x ++ d) = countPR pat x d + countPos pat d := by
  induction x with
  | nil => simp [countPR]
  | cons c x ih =>
    simp only [List.cons_append, countPos, countPR, ih, List.append_eq]
    omega

theorem countPR_self_ge (pat d : List Char) (hp : pat ≠ []) :
    1 ≤ countPR pat pat d := by
  obtain ⟨p, pt, rfl⟩ := List.exists_cons_of_ne_nil hp
  have hpre : (p :: pt).isPrefixOf (p :: (pt ++ d)) = true := by
    rw [List.isPrefixOf_iff_prefix, ← List.cons_append]
    exact List.prefix_append _ _
  simp [countPR, hpre]

theorem countPR_of_disjoint (pat r d : List Char) (hp : pat ≠ [])
    (hd : ∀ c ∈ r, c ∉ pat) : countPR pat r d = 0 := by
  induction r with
  | nil => rfl
  | cons c r ih =>
    obtain ⟨p, pt, hpat⟩ := List.exists_cons_of_ne_nil hp
    have hne : (p == c) = false := by
      apply beq_eq_false_iff_ne.mpr
      intro h
      apply hd c (List.mem_cons_self c r)
      rw [hpat, ← h]
      exact List.mem_cons_self p pt
    have hpre : pat.isPrefixOf (c :: (r ++ d)) = false := by
      rw [hpat]
      simp [List.isPrefixOf, hne]
    have ih' := ih (fun x hx => hd x (List.mem_cons_of_mem _ hx))
    simp [countPR, hpre, ih']

theorem replaceFirstL_of_no_match (pat repl s : List Char) (hp : pat ≠ [])
    (h : countPos pat s = 0) : replaceFirstL pat repl s = s := by
  induction s with
  | nil =>
    obtain ⟨p, pt, rfl⟩ := List.exists_cons_of_ne_nil hp
    have hnil : (p :: pt).isPrefixOf ([] : List Char) = false := by
      rw [← Bool.not_eq_true, List.isPrefixOf_iff_prefix, List.prefix_nil]
      simp
    simp [replaceFirstL, hnil]
  | cons c rest ih =>
    simp only [countPos] at h
    by_cases hpre : pat.isPrefixOf (c :: rest) = true
    · simp [hpre] at h
    · rw [Bool.not_eq_true] at hpre
      simp only [hpre] at h
      simp only [Bool.false_eq_true, if_false, Nat.zero_add] at h
      simp [replaceFirstL, hpre, ih h]

theorem replaceFirstL_decomp (pat repl s : List Char) (h : 1 ≤ countPos pat s) :
    ∃ b d, s = b ++ pat ++ d ∧ replaceFirstL pat repl s = b ++ repl ++ d := by
  induction s with
  | nil => simp [countPos] at h
  | cons c rest ih =>
    by_cases hpre : pat.isPrefixOf (c :: rest) = true
    · obtain ⟨t, ht⟩ := List.isPrefixOf_iff_prefix.mp hpre
      refine ⟨[], t, by simp [← ht], ?_⟩
      simp only [replaceFirstL, hpre, if_true]
      rw [← ht, List.drop_left]
      simp
    · rw [Bool.not_eq_true] at hpre
      have h' : 1 ≤ countPos pat rest := by
        simpa [countPos, hpre] using h
      obtain ⟨b, d, hb, hr⟩ := ih h'
      exact ⟨c :: b, d, by simp [hb], by simp [replaceFirstL, hpre, hr]⟩

theorem replaceFirstL_first (pat repl b d : List Char) (hp : pat ≠ [])
    (hb : countPR pat b (pat ++ d) = 0) :
    replaceFirstL pat repl (b ++ pat ++ d) = b ++ repl ++ d := by
  induction b with
  | nil =>
    obtain ⟨p, pt, rfl⟩ := List.exists_cons_of_ne_nil hp
    have hpre : (p :: pt).isPrefixOf (p :: (pt ++ d)) = true := by
      rw [List.isPrefixOf_iff_prefix, ← List.cons_append]
      exact List.prefix_append _ _
    simp only [List.nil_append, List.cons_append]
    simp [replaceFirstL, hpre, List.drop_succ_cons, List.drop_left]
  | cons c b ih =>
    simp only [countPR, List.cons_append, List.append_assoc] at hb
    by_cases hpre : pat.isPrefixOf (c :: (b ++ (pat ++ d))) = true
    · simp [hpre] at hb
    · rw [Bool.not_eq_true] at hpre
      simp only [hpre, Bool.false_eq_true, if_false, Nat.zero_add] at hb
      have ih' := ih (by simpa [List.append_assoc] using hb)
      simp only [List.cons_append, List.append_assoc] at ih' ⊢
      simp [replaceFirstL, hpre, ih']

theorem isPrefixOf_stable (repl d : List Char) (hr : repl ≠ []) :
    ∀ (u pat t' : List Char), pat ≠ [] → (∀ c ∈ repl, c ∉ pat) →
      pat.isPrefixOf (u ++ (repl ++ d)) = true → pat.isPrefixOf (u ++ t') = true := by
  intro u
  induction u with
  | nil =>
    intro pat t' hp hd hpre
    exfalso
    obtain ⟨p, pt, rfl⟩ := List.exists_cons_of_ne_nil hp
    obtain ⟨r, rt, rfl⟩ := List.exists_cons_of_ne_nil hr
    simp only [List.nil_append, List.cons_append, List.isPrefixOf, Bool.and_eq_true,
      beq_iff_eq] at hpre
    apply hd r (List.mem_cons_self r rt)
    rw [← hpre.1]
    exact List.mem_cons_self p pt
  | cons a u ih =>
    intro pat t' hp hd hpre
    obtain ⟨p, pt, rfl⟩ := List.exists_cons_of_ne_nil hp
    simp only [List.cons_append, List.isPrefixOf, Bool.and_eq_true] at hpre ⊢
    refine ⟨hpre.1, ?_⟩
    cases pt with
    | nil => simp [List.isPrefixOf]
    | cons q qt =>
      exact ih (q :: qt) t' (by simp)
        (fun c hc hmem => hd c hc (List.mem_cons_of_mem p hmem)) hpre.2

theorem countPR_stable (pat repl d : List Char) (hp : pat ≠ []) (hr : repl ≠ [])
    (hd : ∀ c ∈ repl, c ∉ pat) :
    ∀ b, countPR pat b (pat ++ d) = 0 → countPR pat b (repl ++ d) = 0 := by
  intro b
  induction b with
  | nil => intro _; rfl
  | cons c b ih =>
    intro h
    simp only [countPR, List.append_assoc] at h ⊢
    by_cases hpre : pat.isPrefixOf (c :: (b ++ (pat ++ d))) = true
    · simp [hpre] at h
    · rw [Bool.not_eq_true] at hpre
      simp only [hpre, Bool.false_eq_true, if_false, Nat.zero_add] at h
      have hnew : pat.isPrefixOf (c :: (b ++ (repl ++ d))) = false := by
        rw [← Bool.not_eq_true]
        intro hcon
        have htrans := isPrefixOf_stable repl d hr (c :: b) pat (pat ++ d) hp hd
          (by rw [List.cons_append]; exact hcon)
        rw [List.cons_append] at htrans
        rw [htrans] at hpre
        simp at hpre
      simp [hnew, ih h]

theorem countPos_replaceFirstL_of_le_one (pat repl s : List Char) (hp : pat ≠ [])
    (hr : repl ≠ []) (hd : ∀ c ∈ repl, c ∉ pat) (h1 : countPos pat s ≤ 1) :
    countPos pat (replaceFirstL pat repl s) = 0 := by
  rcases Nat.lt_or_ge (countPos pat s) 1 with h0 | hge
  · have h0' : countPos pat s = 0 := by omega
    rw [replaceFirstL_of_no_match pat repl s hp h0']
    exact h0'
  · obtain ⟨b, d, hs, hrepl⟩ := replaceFirstL_decomp pat repl s hge
    have hone : countPos pat s = 1 := by omega
    have hcount : countPR pat b (pat ++ d) + countPos pat (pat ++ d) = 1 := by
      rw [← countPos_append, ← List.append_assoc, ← hs]
      exact hone
    have hsub : countPos pat (pat ++ d) = countPR pat pat d + countPos pat d :=
      countPos_append pat pat d
    have hself : 1 ≤ countPR pat pat d := countPR_self_ge pat d hp
    have hb0 : countPR pat b (pat ++ d) = 0 := by omega
    have hd0 : countPos pat d = 0 := by omega
    rw [hrepl, List.append_assoc, countPos_append, countPos_append]
    rw [countPR_stable pat repl d hp hr hd b hb0,
      countPR_of_disjoint pat repl d hp hd, hd0]

theorem versionToken_ne_nil : versionToken ≠ [] := by decide

/-! ## Properties of the manifest sanitizer -/

theorem manipulatePackageJsonFile_fields (p q : PackageJson)
    (h : manipulatePackageJsonFile p = Except.ok q) :
    q.«private» = none ∧ q.scripts = none ∧ q.devDependencies = none
    ∧ q.publishConfig = some { access := "public" } := by
  unfold manipulatePackageJsonFile at h
  split at h
  · simp at h
  · injection h with h
    subst h
    exact ⟨rfl, rfl, rfl, rfl⟩

/-! ## Claim C1 -/

/-- C1: after a successful pipeline run the manifest written in the output
directory has no `private`, `scripts` or `devDependencies` key and has
`publishConfig.access = "public"`, whatever those fields held in the source
manifest. -/
theorem c1_sanitized_manifest_invariant (src : SourceFs) (prev : Option DistState)
    (d : DistState) (h : runPipeline src prev = Except.ok d) :
    d.packageJson.map
        (fun q => (q.«private», q.scripts, q.devDependencies, q.publishConfig))
      = some (none, none, none, some { access := "public" }) := by
  rw [runPipeline] at h
  simp only [] at h
  cases hcf : (copyStaticFiles (srcHasOf src)).fatalError with
  | some e => simp [hcf] at h
  | none =>
    simp only [hcf] at h
    cases hpk : src.packageJson with
    | none => simp [hpk] at h
    | some rootPkg =>
      simp only [hpk, updateVersionTemplates] at h
      by_cases hmem : "package.json" ∈ (copyStaticFiles (srcHasOf src)).copied
      · simp only [hmem, if_true] at h
        cases hman : manipulatePackageJsonFile rootPkg with
        | error e => simp [hman] at h
        | ok pj2 =>
          simp only [hman] at h
          injection h with h
          rw [← h]
          obtain ⟨h1, h2, h3, h4⟩ := manipulatePackageJsonFile_fields rootPkg pj2 hman
          simp [h1, h2, h3, h4]
      · simp [hmem] at h

/-- Witness for C1: running the pipeline on the concrete source tree `wSrc`
succeeds and the claim theorem applies to its output. -/
theorem c1_sanitized_manifest_invariant_witness :
    runPipeline wSrc none = Except.ok wDistOut
    ∧ wDistOut.packageJson.map
        (fun q => (q.«private», q.scripts, q.devDependencies, q.publishConfig))
      = some (none, none, none, some { access := "public" }) :=
  ⟨by rfl, c1_sanitized_manifest_invariant wSrc none wDistOut (by rfl)⟩

/-! ## Claim C2 -/

/-- C2: step 4 reads the version from the ROOT manifest, replaces exactly the
first occurrence of the placeholder token in the built artifact (the region
before it contains no match; everything after it, later occurrences included,
is kept verbatim), writes the result back to the same artifact, and touches
nothing else: the copied manifest and static files are unchanged, and the
result does not depend on the manifest copy in the output directory. -/
theorem c2_update_first_occurrence (rootPkg : PackageJson) (dist : DistState)
    (b d : List Char) (pjAlt : Option PackageJson)
    (hsplit : dist.indexJs.data = b ++ versionToken ++ d)
    (hfirst : countPR versionToken b (versionToken ++ d) = 0) :
    (updateVersionTemplates rootPkg dist).indexJs.data = b ++ rootPkg.version.data ++ d
    ∧ (updateVersionTemplates rootPkg dist).packageJson = dist.packageJson
    ∧ (updateVersionTemplates rootPkg dist).staticFiles = dist.staticFiles
    ∧ (updateVersionTemplates rootPkg { dist with packageJson := pjAlt }).indexJs
        = (updateVersionTemplates rootPkg dist).indexJs := by
  refine ⟨?_, rfl, rfl, rfl⟩
  show replaceFirstL versionToken rootPkg.version.data dist.indexJs.data
    = b ++ rootPkg.version.data ++ d
  rw [hsplit]
  exact replaceFirstL_first versionToken rootPkg.version.data b d versionToken_ne_nil hfirst

/-- Witness for C2: the artifact "v \x7b\x7bversion\x7d\x7d z" with source
version "2.3.1" becomes "v 2.3.1 z". -/
theorem c2_update_first_occurrence_witness :
    (wDistOneToken.indexJs.data = "v ".data ++ versionToken ++ " z".data
      ∧ countPR versionToken "v ".data (versionToken ++ " z".data) = 0)
    ∧ ((updateVersionTemplates wPkg wDistOneToken).indexJs.data
          = "v ".data ++ wPkg.version.data ++ " z".data
        ∧ (updateVersionTemplates wPkg wDistOneToken).packageJson
            = wDistOneToken.packageJson
        ∧ (updateVersionTemplates wPkg wDistOneToken).staticFiles
            = wDistOneToken.staticFiles
        ∧ (updateVersionTemplates wPkg { wDistOneToken with packageJson := none }).indexJs
            = (updateVersionTemplates wPkg wDistOneToken).indexJs) :=
  ⟨⟨by rfl, by rfl⟩,
    c2_update_first_occurrence wPkg wDistOneToken "v ".data " z".data none
      (by rfl) (by rfl)⟩

/-! ## Claim C3 -/

/-- C3 is false as stated: on an artifact holding the token twice, only the
first occurrence is substituted, so the artifact still holds the token after
the version-update step (one occurrence remains, not zero). -/
theorem c3_counterexample :
    countPos versionToken wDistTwoTokens.indexJs.data = 2
    ∧ (updateVersionTemplates wPkg wDistTwoTokens).indexJs
        = "2.3.1\x7b\x7bversion\x7d\x7d"
    ∧ ¬ countPos versionToken
        (updateVersionTemplates wPkg wDistTwoTokens).indexJs.data = 0 := by
  refine ⟨by rfl, by rfl, ?_⟩
  intro h
  have hone : countPos versionToken
      (updateVersionTemplates wPkg wDistTwoTokens).indexJs.data = 1 := by rfl
  rw [hone] at h
  exact absurd h (by decide)

/-- C3 (amended): after the version-update step the artifact contains zero
occurrences of the placeholder token, provided the token occurred at most
once (when it occurs several times only the first occurrence is substituted
and later ones remain), the version string is nonempty, and the version
string shares no character with the token. -/
theorem c3_amended_token_gone (rootPkg : PackageJson) (dist : DistState)
    (hv : rootPkg.version.data ≠ [])
    (hdisj : ∀ c ∈ rootPkg.version.data, c ∉ versionToken)
    (hle : countPos versionToken dist.indexJs.data ≤ 1) :
    countPos versionToken (updateVersionTemplates rootPkg dist).indexJs.data = 0 :=
  countPos_replaceFirstL_of_le_one versionToken rootPkg.version.data dist.indexJs.data
    versionToken_ne_nil hv hdisj hle

/-- Witness for the amended C3: an artifact holding the token once, with
version "2.3.1", holds no token after the step. -/
theorem c3_amended_token_gone_witness :
    (wPkg.version.data ≠ []
      ∧ (∀ c ∈ wPkg.version.data, c ∉ versionToken)
      ∧ countPos versionToken wDistOneToken.indexJs.data ≤ 1)
    ∧ countPos versionToken (updateVersionTemplates wPkg wDistOneToken).indexJs.data = 0 :=
  ⟨⟨by decide, by decide, by decide⟩,
    c3_amended_token_gone wPkg wDistOneToken (by decide) (by decide) (by decide)⟩

/-! ## Claim C10 -/

/-- C10: when the built artifact contains no occurrence of the placeholder
token, the version-update step completes without error and leaves the whole
output directory byte-identical (the artifact is rewritten unchanged). -/
theorem c10_missing_token_is_identity (rootPkg : PackageJson) (dist : DistState)
    (h : countPos versionToken dist.indexJs.data = 0) :
    updateVersionTemplates rootPkg dist = dist := by
  have hrepl := replaceFirstL_of_no_match versionToken rootPkg.version.data
    dist.indexJs.data versionToken_ne_nil h
  unfold updateVersionTemplates
  rw [hrepl]

/-- Witness for C10: a token-free artifact is left unchanged. -/
theorem c10_missing_token_is_identity_witness :
    countPos versionToken wDistNoToken.indexJs.data = 0
    ∧ updateVersionTemplates wPkg wDistNoToken = wDistNoToken :=
  ⟨by decide, c10_missing_token_is_identity wPkg wDistNoToken (by decide)⟩

/-! ## Claim C4 -/

/-- C4 is false in its logging part: with every file but the optional
`.npmrc` present, the copier continues past the failed `.npmrc` copy
without emitting any log entry for it (the catch block returns before
`console.error`), so the failure is skipped silently, not logged. -/
theorem c4_counterexample :
    (copyStaticFiles wNoNpmrcHas).fatalError = none
    ∧ (copyStaticFiles wNoNpmrcHas).logs
        = [LogEntry.copiedFile "package.json", LogEntry.copiedFile "README.md",
           LogEntry.copiedFile ".npmignore"]
    ∧ LogEntry.errorPrinted ".npmrc" ∉ (copyStaticFiles wNoNpmrcHas).logs := by
  refine ⟨by rfl, by rfl, ?_⟩
  decide

/-- C4 (amended): when a copy fails and `allowedToFail` is true the copier
silently skips the entry (no log) and continues with the remaining entries
exactly as if the entry were absent; when the flag is false or absent the
copier stops with the fatal "File MUST exist" error, nothing after the
failing entry is copied, and on a source tree whose readme is missing the
whole pipeline aborts with that error, so manifest sanitization is never
reached. -/
theorem c4_amended_copy_failure (srcHas : String → Bool) (specA specR : CopySpec)
    (rest : List CopySpec) (src : SourceFs) (prev : Option DistState) (p : PackageJson)
    (hA1 : srcHas specA.filename = false)
    (hA2 : specA.isAllowedToFail.getD false = true)
    (hR1 : srcHas specR.filename = false)
    (hR2 : specR.isAllowedToFail.getD false = false)
    (hreadme : src.hasReadme = false) (hpkg : src.packageJson = some p) :
    copyFilesGo srcHas (specA :: rest) = copyFilesGo srcHas rest
    ∧ (copyFilesGo srcHas (specR :: rest)).fatalError = some copyFatalMsg
    ∧ (copyFilesGo srcHas (specR :: rest)).copied = []
    ∧ runPipeline src prev = Except.error copyFatalMsg := by
  refine ⟨?_, ?_, ?_, ?_⟩
  · simp [copyFilesGo, hA1, hA2]
  · simp [copyFilesGo, hR1, hR2]
  · simp [copyFilesGo, hR1, hR2]
  · rw [runPipeline]
    simp [copyStaticFiles, copyFilesGo, filesToCopyArr, srcHasOf, hpkg, hreadme]

/-- Witness for the amended C4: on an empty source tree the optional
`.npmrc` entry is skipped, the required `README.md` entry is fatal, and the
pipeline on `wNoReadmeSrc` aborts with the copy error. -/
theorem c4_amended_copy_failure_witness :
    (wMissingHas wSpecNpmrc.filename = false
      ∧ wSpecNpmrc.isAllowedToFail.getD false = true
      ∧ wMissingHas wSpecReadme.filename = false
      ∧ wSpecReadme.isAllowedToFail.getD false = false
      ∧ wNoReadmeSrc.hasReadme = false
      ∧ wNoReadmeSrc.packageJson = some wPkg)
    ∧ (copyFilesGo wMissingHas [wSpecNpmrc] = copyFilesGo wMissingHas []
        ∧ (copyFilesGo wMissingHas [wSpecReadme, wSpecNpmrc]).fatalError
            = some copyFatalMsg
        ∧ (copyFilesGo wMissingHas [wSpecReadme, wSpecNpmrc]).copied = []
        ∧ runPipeline wNoReadmeSrc none = Except.error copyFatalMsg) :=
  ⟨⟨rfl, rfl, rfl, rfl, rfl, rfl⟩,
    c4_amended_copy_failure wMissingHas wSpecNpmrc wSpecReadme [wSpecNpmrc]
      wNoReadmeSrc none wPkg rfl rfl rfl rfl rfl rfl⟩

/-! ## Claim C5 -/

/-- C5: the directory cleaner selects the command string `rd /s /q <dir>`
exactly when the detected platform is win32 and `rm -rf <dir>` otherwise,
and on either branch the shell call (modelled from the spec as forced
recursive deletion that is a silent no-op on a missing directory) succeeds
and leaves exactly the directory set with the output directory removed. -/
theorem c5_clean_target_directory (platform outDirName : String)
    (dirs : String → Bool) (hp : platform ≠ "win32") :
    cleanDeleteCommand "win32" outDirName = "rd /s /q " ++ outDirName
    ∧ cleanDeleteCommand platform outDirName = "rm -rf " ++ outDirName
    ∧ cleanTargetDirectory "win32" outDirName dirs
        = some (shellRemoveDir outDirName dirs)
    ∧ cleanTargetDirectory platform outDirName dirs
        = some (shellRemoveDir outDirName dirs) := by
  have hcmd1 : cleanDeleteCommand "win32" outDirName = "rd /s /q " ++ outDirName := by
    simp [cleanDeleteCommand]
  have hcmd2 : cleanDeleteCommand platform outDirName = "rm -rf " ++ outDirName := by
    simp [cleanDeleteCommand, hp]
  refine ⟨hcmd1, hcmd2, ?_, ?_⟩
  · rw [cleanTargetDirectory, hcmd1, execSyncDelete, String.data_append]
    have hpre : "rd /s /q ".data.isPrefixOf ("rd /s /q ".data ++ outDirName.data) = true := by
      rw [List.isPrefixOf_iff_prefix]
      exact List.prefix_append _ _
    have hdrop : ("rd /s /q ".data ++ outDirName.data).drop 9 = outDirName.data := by
      have h9 : ("rd /s /q ".data).length = 9 := rfl
      rw [← h9, List.drop_left]
    rw [if_pos hpre, hdrop]
  · rw [cleanTargetDirectory, hcmd2, execSyncDelete, String.data_append]
    have hno : "rd /s /q ".data.isPrefixOf ("rm -rf ".data ++ outDirName.data) = false := rfl
    have hpre : "rm -rf ".data.isPrefixOf ("rm -rf ".data ++ outDirName.data) = true := by
      rw [List.isPrefixOf_iff_prefix]
      exact List.prefix_append _ _
    have hdrop : ("rm -rf ".data ++ outDirName.data).drop 7 = outDirName.data := by
      have h7 : ("rm -rf ".data).length = 7 := rfl
      rw [← h7, List.drop_left]
    rw [if_neg (by rw [hno]; exact Bool.false_ne_true), if_pos hpre, hdrop]

/-- Witness for C5: cleaning `dist` on a non-win32 platform with `dist`
present. -/
theorem c5_clean_target_directory_witness :
    ("linux" ≠ "win32")
    ∧ (cleanDeleteCommand "win32" "dist" = "rd /s /q " ++ "dist"
        ∧ cleanDeleteCommand "linux" "dist" = "rm -rf " ++ "dist"
        ∧ cleanTargetDirectory "win32" "dist" (fun _ => true)
            = some (shellRemoveDir "dist" (fun _ => true))
        ∧ cleanTargetDirectory "linux" "dist" (fun _ => true)
            = some (shellRemoveDir "dist" (fun _ => true))) :=
  ⟨by decide, c5_clean_target_directory "linux" "dist" (fun _ => true) (by decide)⟩

/-! ## Claim C6 -/

/-- C6: when the copied manifest has no `publishConfig` object, step 5
throws the TypeError raised by setting a property of `undefined`, and the
pipeline run on such a source tree aborts with that error; success of the
sanitizer therefore presupposes a `publishConfig` mapping in the source
manifest. -/
theorem c6_missing_publish_config_throws (p : PackageJson) (src : SourceFs)
    (prev : Option DistState) (hpc : p.publishConfig = none)
    (hsrc : src.packageJson = some p) (hreadme : src.hasReadme = true) :
    manipulatePackageJsonFile p = Except.error publishConfigTypeError
    ∧ runPipeline src prev = Except.error publishConfigTypeError := by
  have hman : manipulatePackageJsonFile p = Except.error publishConfigTypeError := by
    rw [manipulatePackageJsonFile, hpc]
  refine ⟨hman, ?_⟩
  rw [runPipeline]
  cases hn : src.hasNpmrc <;> cases hni : src.hasNpmignore <;>
    simp [copyStaticFiles, copyFilesGo, filesToCopyArr, srcHasOf, hsrc, hreadme,
      hn, hni, updateVersionTemplates, hman]

/-- Witness for C6: the concrete manifest `wNoPubPkg` lacks `publishConfig`
and the pipeline on `wNoPubSrc` aborts with the TypeError. -/
theorem c6_missing_publish_config_throws_witness :
    (wNoPubPkg.publishConfig = none
      ∧ wNoPubSrc.packageJson = some wNoPubPkg
      ∧ wNoPubSrc.hasReadme = true)
    ∧ (manipulatePackageJsonFile wNoPubPkg = Except.error publishConfigTypeError
        ∧ runPipeline wNoPubSrc none = Except.error publishConfigTypeError) :=
  ⟨⟨rfl, rfl, rfl⟩,
    c6_missing_publish_config_throws wNoPubPkg wNoPubSrc none rfl rfl rfl⟩

/-! ## Claim C7 -/

/-- C7: in the in-process esbuild variant the `minify` option is true
exactly when the environment mode equals "production", and `sourcemap` is
the boolean negation of `minify`. -/
theorem c7_minify_iff_production (mode : Option String) (outDirName : String) :
    ((esbuildBuildOptions mode outDirName).minify = true ↔ mode = some "production")
    ∧ (esbuildBuildOptions mode outDirName).sourcemap
        = !(esbuildBuildOptions mode outDirName).minify := by
  constructor
  · simp [esbuildBuildOptions, isProdOf]
  · rfl

/-! ## Claim C8 -/

/-- C8: the pipeline result depends only on the source inputs, never on the
previous output directory (step 1 deletes it), so a second run on identical
source inputs reproduces the first run's output directory byte for byte. -/
theorem c8_pipeline_idempotent (src : SourceFs) (prev : Option DistState)
    (d : DistState) (h : runPipeline src prev = Except.ok d) :
    runPipeline src (some d) = Except.ok d := h

/-- Witness for C8: a successful run on `wSrc`, rerun on top of its own
output, reproduces `wDistOut`. -/
theorem c8_pipeline_idempotent_witness :
    runPipeline wSrc none = Except.ok wDistOut
    ∧ runPipeline wSrc (some wDistOut) = Except.ok wDistOut :=
  ⟨by rfl, c8_pipeline_idempotent wSrc none wDistOut (by rfl)⟩

/-! ## Claim C9 -/

/-- C9: the completion message reports the time elapsed between the start
timestamp captured before step 1 and the end timestamp captured after
step 5, formatted as seconds with two decimal digits when at least 1000 ms
elapsed and as a whole number of milliseconds otherwise. -/
theorem c9_done_message_format (startTime endTime : Nat) (src : SourceFs)
    (prev : Option DistState) (d : DistState) (msg : String)
    (hse : startTime ≤ endTime)
    (h : buildPackageConfigTimed startTime endTime src prev = Except.ok (d, msg)) :
    msg = "✨Done in " ++
      (if endTime - startTime ≥ 1000
        then toFixedTwoOfMs (endTime - startTime) ++ " sec"
        else toString (endTime - startTime) ++ " ms") ++ " ✅" := by
  rw [buildPackageConfigTimed] at h
  cases hrun : runPipeline src prev with
  | error e => rw [hrun] at h; simp at h
  | ok d2 =>
    rw [hrun] at h
    injection h with h
    have hmsg := congrArg Prod.snd h
    simp only [] at hmsg
    rw [← hmsg]
    rfl

/-- Witness for C9: a run of 1234 ms on `wSrc` reports "1.23 sec". -/
theorem c9_done_message_format_witness :
    (0 ≤ 1234
      ∧ buildPackageConfigTimed 0 1234 wSrc none = Except.ok (wDistOut, wDoneMsg))
    ∧ wDoneMsg = "✨Done in " ++
        (if 1234 - 0 ≥ 1000
          then toFixedTwoOfMs (1234 - 0) ++ " sec"
          else toString (1234 - 0) ++ " ms") ++ " ✅" :=
  ⟨⟨by decide, by rfl⟩,
    c9_done_message_format 0 1234 wSrc none wDistOut wDoneMsg (by decide) (by rfl)⟩

end BuildConfig
